import Mathlib

/-!
Verification of the routing decision engine and worker loop of the
dago-node-router repository, shallowly embedded in Lean 4.

The embedding mirrors the Go sources under `internal/router` and
`internal/worker`: Go maps are modelled as association lists (entries in
iteration order, keys unique where Go guarantees it), Go `(T, error)`
returns as `Except String T`, and the external collaborators (the CEL
evaluator, the Handlebars template engine, the LLM client, the Redis
broker and the state store) as oracle function fields, since their code
lives outside this repository.  String case-folding is modelled over
ASCII.
-/

/-- Untyped JSON-like values, modelling Go `interface{}` data carried in
graph-state inputs, node outputs and configs. -/
inductive Value where
  | vNull : Value
  | vBool : Bool → Value
  | vInt : Int → Value
  | vStr : String → Value
  | vMap : List (String × Value) → Value

/-- Conversion used by the Go type assertion `result.(bool)`: only a
boolean value yields a boolean. -/
def Value.asBool? : Value → Option Bool
  | .vBool b => some b
  | _ => none

/-- Per-node sub-record of a graph state (domain.NodeState as consumed by
`convertNodeStates`). -/
structure NodeState where
  status : String
  output : Value
  error : String
  started_at : Value
  completed_at : Value

/-- Graph state snapshot (domain.GraphState as consumed by the router). -/
structure GraphState where
  graph_id : String
  status : String
  inputs : List (String × Value)
  node_states : List (String × NodeState)

/-- CEL-based routing rule (router.Rule). -/
structure Rule where
  condition : String
  target : String
  deriving DecidableEq

/-- LLM routing configuration (router.LLMConfig); `routes` is a Go map
modelled as an association list in iteration order. -/
structure LLMConfig where
  prompt_template : String
  routes : List (String × String)
  deriving DecidableEq

/-- Node routing configuration (router.NodeConfig); `mode` is the Go
string field, empty when unset. -/
structure NodeConfig where
  mode : String
  rules : List Rule
  fast_rules : List Rule
  llm_config : Option LLMConfig
  llm_fallback : Option LLMConfig
  fallback : String
  deriving DecidableEq

/-- Result of a routing decision (router.RoutingResult). -/
structure RoutingResult where
  target_node : String
  reasoning : String
  mode : String
  path_taken : String
  deriving DecidableEq

/-- Outcome of evaluating a CEL expression: the Go pair
`(interface{}, error)` returned by `Evaluator.Evaluate`. -/
inductive EvalResult where
  | err : String → EvalResult
  | val : Value → EvalResult

/-- The router with its collaborators (router.Router).  The CEL
evaluator, the template engine and the LLM client are external to this
repository and are modelled as oracles; a `none` client models a nil
`ports.LLMClient`. -/
structure Router where
  celEval : String → List (String × Value) → EvalResult
  renderTemplate : String → List (String × Value) → Except String String
  llmClient : Option (String → Except String String)

/-- ASCII lowercasing of one character, modelling `strings.ToLower` on
the ASCII range. -/
def lowerChar (c : Char) : Char :=
  if 65 ≤ c.toNat ∧ c.toNat ≤ 90 then Char.ofNat (c.toNat + 32) else c

/-- ASCII lowercasing of a string. -/
def lowerStr (s : String) : String := ⟨s.data.map lowerChar⟩

/-- Whitespace test used by trimming (the ASCII subset of Go
`unicode.IsSpace`). -/
def isWS (c : Char) : Bool := c = ' ' ∨ c = '\t' ∨ c = '\n' ∨ c = '\r'

/-- Trimming of leading and trailing whitespace over a character list. -/
def trimChars (l : List Char) : List Char :=
  ((l.dropWhile isWS).reverse.dropWhile isWS).reverse

/-- Trimming of leading and trailing whitespace, modelling
`strings.TrimSpace`. -/
def trimStr (s : String) : String := ⟨trimChars s.data⟩

/-- Containment of one character list at the head of another. -/
def listLeads : List Char → List Char → Bool
  | [], _ => true
  | _ :: _, [] => false
  | a :: as, b :: bs => a = b && listLeads as bs

/-- Containment of a character list anywhere inside another. -/
def listHasSub (needle : List Char) : List Char → Bool
  | [] => listLeads needle []
  | c :: rest => listLeads needle (c :: rest) || listHasSub needle rest

/-- Substring containment, modelling `strings.Contains hay needle`. -/
def strHas (hay needle : String) : Bool := listHasSub needle.data hay.data

/-- Case-insensitive string equality, modelling `strings.EqualFold` on
ASCII. -/
def equalFold (a b : String) : Bool := lowerStr a == lowerStr b

/-- Lookup in an association-list map, modelling Go map indexing. -/
def lookupVal (m : List (String × Value)) (k : String) : Option Value :=
  (m.find? (fun p => p.1 == k)).map Prod.snd

/-- Assignment into an association-list map, modelling Go map
assignment `m[k] = v` (overwrites the unique existing key, else adds). -/
def insertVal : List (String × Value) → String → Value → List (String × Value)
  | [], k, v => [(k, v)]
  | p :: rest, k, v => if p.1 == k then (k, v) :: rest else p :: insertVal rest k v

/-- Per-rule emptiness checks of `validateConfig`'s deterministic-rules
loop (router.go lines 160-167), with the running index used in the
error message. -/
def checkRules : Nat → List Rule → Option String
  | _, [] => none
  | i, r :: rest =>
    if r.condition == "" then some ("rule " ++ toString i ++ ": condition is required")
    else if r.target == "" then some ("rule " ++ toString i ++ ": target is required")
    else checkRules (i + 1) rest

/-- Validation of a routing configuration (router.validateConfig); the
`Option NodeConfig` argument models the nil-able Go pointer and the
result is the returned error message, `none` meaning valid. -/
def validateConfig : Option NodeConfig → Option String
  | none => some "config is nil"
  | some cfg =>
    if cfg.fallback == "" then some "fallback route is required"
    else if cfg.mode == "deterministic" then
      if cfg.rules.isEmpty then some "deterministic mode requires rules"
      else checkRules 0 cfg.rules
    else if cfg.mode == "llm" then
      match cfg.llm_config with
      | none => some "llm mode requires llm_config"
      | some lc =>
        if lc.prompt_template == "" then some "llm_config.prompt_template is required"
        else if lc.routes.isEmpty then some "llm_config.routes is required"
        else none
    else if cfg.mode == "hybrid" then
      if cfg.fast_rules.isEmpty then some "hybrid mode requires fast_rules"
      else
        match cfg.llm_fallback with
        | none => some "hybrid mode requires llm_fallback"
        | some lf =>
          if lf.prompt_template == "" then some "llm_fallback.prompt_template is required"
          else if lf.routes.isEmpty then some "llm_fallback.routes is required"
          else none
    else none

/-- Mode detection for configs without an explicit mode
(router.detectMode). -/
def detectMode (cfg : NodeConfig) : String :=
  if cfg.fast_rules.length > 0 ∧ cfg.llm_fallback.isSome then "hybrid"
  else if cfg.llm_config.isSome then "llm"
  else if cfg.rules.length > 0 then "deterministic"
  else "deterministic"

/-- Projection of a node state into a CEL-friendly map
(router.convertNodeStates, one entry). -/
def convertNodeState (ns : NodeState) : Value :=
  .vMap [("status", .vStr ns.status), ("output", ns.output),
    ("error", .vStr ns.error), ("started_at", ns.started_at),
    ("completed_at", ns.completed_at)]

/-- Projection of all node states (router.convertNodeStates). -/
def convertNodeStates (m : List (String × NodeState)) : List (String × Value) :=
  m.map (fun p => (p.1, convertNodeState p.2))

/-- The `state` value handed to the CEL evaluator
(router.prepareStateForCEL, inner map). -/
def celStateVal (st : GraphState) : Value :=
  .vMap [("graph_id", .vStr st.graph_id), ("status", .vStr st.status),
    ("inputs", .vMap st.inputs),
    ("node_states", .vMap (convertNodeStates st.node_states))]

/-- Variables handed to the CEL evaluator (router.prepareStateForCEL). -/
def prepareStateForCEL (st : GraphState) : List (String × Value) :=
  [("state", celStateVal st)]

/-- The `state` value handed to the template engine (router.renderPrompt,
inner map): note it carries no `node_states` entry. -/
def templateStateVal (st : GraphState) : Value :=
  .vMap [("graph_id", .vStr st.graph_id), ("status", .vStr st.status),
    ("inputs", .vMap st.inputs)]

/-- Data handed to the template engine (router.renderPrompt): a `state`
binding plus every input flattened to a top-level field. -/
def templateData (st : GraphState) : List (String × Value) :=
  st.inputs.foldl (fun m p => insertVal m p.1 p.2)
    [("state", templateStateVal st)]

/-- Prompt rendering (router.renderPrompt): the oracle template engine
applied to the flattened data. -/
def renderPrompt (r : Router) (st : GraphState) (template : String) :
    Except String String :=
  r.renderTemplate template (templateData st)

/-- LLM invocation (router.callLLM): the oracle client applied to the
prompt, errors wrapped the way `fmt.Errorf` wraps them. -/
def callLLM (client : String → Except String String) (prompt : String) :
    Except String String :=
  match client prompt with
  | .error e => .error ("llm completion failed: " ++ e)
  | .ok content => .ok content

/-- Rule-scanning loop shared by routeDeterministic and routeHybrid
(deterministic.go lines 22-65, hybrid.go lines 25-68): evaluation errors
and non-boolean results skip to the next rule; the first rule whose
condition evaluates to boolean true is returned with its index. -/
def evalRules (E : String → EvalResult) : Nat → List Rule → Option (Nat × Rule)
  | _, [] => none
  | i, rule :: rest =>
    match E rule.condition with
    | .err _ => evalRules E (i + 1) rest
    | .val v =>
      match v.asBool? with
      | none => evalRules E (i + 1) rest
      | some true => some (i, rule)
      | some false => evalRules E (i + 1) rest

/-- Test for an evaluation outcome that is the boolean value true. -/
def EvalResult.isTrue : EvalResult → Bool
  | .val (.vBool true) => true
  | _ => false

/-- The first rule (with index) whose condition evaluates to boolean
true, written directly from the spec's order-first-match description for
comparison with the code's rule-scanning loop. -/
def firstTrueRule (E : String → EvalResult) : Nat → List Rule → Option (Nat × Rule)
  | _, [] => none
  | i, rule :: rest =>
    if (E rule.condition).isTrue then some (i, rule)
    else firstTrueRule E (i + 1) rest

/-- The CEL-evaluation oracle a router applies to a rule condition for a
given graph state. -/
def celE (r : Router) (st : GraphState) : String → EvalResult :=
  fun c => r.celEval c (prepareStateForCEL st)

/-- Deterministic routing (router.routeDeterministic). -/
def routeDeterministic (r : Router) (st : GraphState) (cfg : NodeConfig) :
    Except String RoutingResult :=
  match validateConfig (some cfg) with
  | some e => .error ("invalid config: " ++ e)
  | none =>
    match evalRules (celE r st) 0 cfg.rules with
    | some (i, rule) =>
      .ok ⟨rule.target, "matched rule " ++ toString i ++ ": " ++ rule.condition,
        "deterministic", "fast"⟩
    | none => .ok ⟨cfg.fallback, "no rules matched", "deterministic", "fallback"⟩

/-- Response-to-route matching (router.matchLLMResponse): normalise the
response, then exact lookup against the original keys, then
case-insensitive equality, then substring containment; `none` models the
Go `("", false)` no-match return. -/
def matchLLMResponse (response : String) (routes : List (String × String)) :
    Option String :=
  let normalized := trimStr (lowerStr response)
  match routes.find? (fun p => p.1 == normalized) with
  | some p => some p.2
  | none =>
    match routes.find? (fun p => equalFold p.1 normalized) with
    | some p => some p.2
    | none =>
      match routes.find? (fun p => strHas normalized (lowerStr p.1)) with
      | some p => some p.2
      | none => none

/-- Response-to-route matching written directly from the spec's words
for comparison: step (1) compares the keys lowercased against the
normalised response, the rest as in the code. -/
def matchLLMResponseSpec (response : String) (routes : List (String × String)) :
    Option String :=
  let normalized := trimStr (lowerStr response)
  match routes.find? (fun p => lowerStr p.1 == normalized) with
  | some p => some p.2
  | none =>
    match routes.find? (fun p => equalFold p.1 normalized) with
    | some p => some p.2
    | none =>
      match routes.find? (fun p => strHas normalized (lowerStr p.1)) with
      | some p => some p.2
      | none => none

/-- LLM routing (router.routeLLM). -/
def routeLLM (r : Router) (st : GraphState) (cfg : NodeConfig) :
    Except String RoutingResult :=
  match validateConfig (some cfg) with
  | some e => .error ("invalid config: " ++ e)
  | none =>
    match r.llmClient with
    | none => .error "llm client not configured"
    | some client =>
      match cfg.llm_config with
      | none => .error "nil llm_config"
      | some lc =>
        match renderPrompt r st lc.prompt_template with
        | .error e => .error ("failed to render prompt: " ++ e)
        | .ok prompt =>
          match callLLM client prompt with
          | .error e =>
            .ok ⟨cfg.fallback, "llm call failed: " ++ e, "llm", "fallback"⟩
          | .ok response =>
            match matchLLMResponse response lc.routes with
            | none =>
              .ok ⟨cfg.fallback,
                "llm response '" ++ response ++ "' did not match any route",
                "llm", "fallback"⟩
            | some target =>
              .ok ⟨target, "llm classified as: " ++ response, "llm", "slow"⟩

/-- Hybrid routing (router.routeHybrid): fast CEL rules, then the LLM
fallback; the `nil llm_fallback` branch models the Go nil-pointer
dereference that validation makes unreachable in hybrid mode. -/
def routeHybrid (r : Router) (st : GraphState) (cfg : NodeConfig) :
    Except String RoutingResult :=
  match validateConfig (some cfg) with
  | some e => .error ("invalid config: " ++ e)
  | none =>
    match evalRules (celE r st) 0 cfg.fast_rules with
    | some (i, rule) =>
      .ok ⟨rule.target, "matched fast rule " ++ toString i ++ ": " ++ rule.condition,
        "hybrid", "fast"⟩
    | none =>
      match r.llmClient with
      | none =>
        .ok ⟨cfg.fallback, "fast rules did not match and llm client not configured",
          "hybrid", "fallback"⟩
      | some client =>
        match cfg.llm_fallback with
        | none => .error "nil llm_fallback"
        | some lf =>
          match renderPrompt r st lf.prompt_template with
          | .error e =>
            .ok ⟨cfg.fallback, "failed to render prompt: " ++ e, "hybrid", "fallback"⟩
          | .ok prompt =>
            match callLLM client prompt with
            | .error e =>
              .ok ⟨cfg.fallback, "llm call failed: " ++ e, "hybrid", "fallback"⟩
            | .ok response =>
              match matchLLMResponse response lf.routes with
              | none =>
                .ok ⟨cfg.fallback,
                  "llm response '" ++ response ++ "' did not match any route",
                  "hybrid", "fallback"⟩
              | some target =>
                .ok ⟨target,
                  "llm classified as: " ++ response ++ " (after fast rules failed)",
                  "hybrid", "slow"⟩

/-- Top-level routing dispatch (router.Route): detect the mode when
unset, write it back into the config as the Go code mutates it, then
dispatch on it. -/
def route (r : Router) (st : GraphState) (cfg : NodeConfig) :
    Except String RoutingResult :=
  let mode := if cfg.mode == "" then detectMode cfg else cfg.mode
  let cfg' := { cfg with mode := mode }
  if mode == "deterministic" then routeDeterministic r st cfg'
  else if mode == "llm" then routeLLM r st cfg'
  else if mode == "hybrid" then routeHybrid r st cfg'
  else .error ("unknown routing mode: " ++ mode)

/-- A delivered stream entry (redis.XMessage as consumed by
handleMessage): the entry id and the field map. -/
structure Msg where
  id : String
  values : List (String × Value)

/-- A parsed routing work request (worker.WorkRequest); `config` is the
generic JSON structure later decoded into a NodeConfig. -/
structure WorkRequest where
  executionID : String
  nodeID : String
  config : Value

/-- Observable broker side effects of handling one delivered entry:
appends to the result stream, appends to the error stream, and
acknowledgements. -/
inductive Effect where
  | appendResult : String → String → RoutingResult → Effect
  | appendError : String → String → String → Effect
  | ack : String → Effect

/-- Test for a stream append of either kind. -/
def Effect.isAppend : Effect → Bool
  | .ack _ => false
  | _ => true

/-- Test for an append to the result stream. -/
def Effect.isResult : Effect → Bool
  | .appendResult _ _ _ => true
  | _ => false

/-- Test for an append to the error stream. -/
def Effect.isError : Effect → Bool
  | .appendError _ _ _ => true
  | _ => false

/-- Test for an acknowledgement. -/
def Effect.isAck : Effect → Bool
  | .ack _ => true
  | _ => false

/-- The worker with its external collaborators as oracles: JSON decoding
of work requests, the state store, JSON decoding of state payloads and
node configs, and the router. -/
structure WorkerEnv where
  unmarshalReq : String → Except String WorkRequest
  loadState : String → Except String (List (String × Value))
  unmarshalState : List (String × Value) → Except String GraphState
  parseCfg : Value → Except String NodeConfig
  router : Router

/-- Work-request parsing (worker.parseWorkRequest): the `data` field
must exist and be a string, which the oracle then JSON-decodes. -/
def parseWorkRequest (env : WorkerEnv) (values : List (String × Value)) :
    Except String WorkRequest :=
  match lookupVal values "data" with
  | some (.vStr s) => env.unmarshalReq s
  | _ => .error "missing or invalid 'data' field"

/-- State conversion (worker.convertToGraphState): JSON-decode the state
payload, then default a missing graph id to the execution id. -/
def convertToGraphState (env : WorkerEnv) (graphID : String)
    (stateData : List (String × Value)) : Except String GraphState :=
  match env.unmarshalState stateData with
  | .error e => .error ("failed to unmarshal to GraphState: " ++ e)
  | .ok gs => .ok (if gs.graph_id == "" then { gs with graph_id := graphID } else gs)

/-- Routing-request processing up to the decision
(worker.processRoutingRequest): load state, convert it, parse the
config, route. -/
def processRoutingRequest (env : WorkerEnv) (req : WorkRequest) :
    Except String RoutingResult :=
  match env.loadState req.executionID with
  | .error e => .error ("failed to load state: " ++ e)
  | .ok stateData =>
    match convertToGraphState env req.executionID stateData with
    | .error e => .error ("failed to convert state: " ++ e)
    | .ok graphState =>
      match env.parseCfg req.config with
      | .error e => .error ("failed to parse node config: " ++ e)
      | .ok cfg =>
        match route env.router graphState cfg with
        | .error e => .error ("routing failed: " ++ e)
        | .ok result => .ok result

/-- Message handling (worker.handleMessage), with its broker side
effects recorded in order.  Stream appends are assumed to succeed (the
verified properties are scoped to non-broker failures, and the JSON
encodings of the emitted records are total), so a successful decision
records its result-stream append and a processing failure records its
error-stream append; the acknowledgement always comes last. -/
def handleMessage (env : WorkerEnv) (msg : Msg) : List Effect :=
  match parseWorkRequest env msg.values with
  | .error _ => [.ack msg.id]
  | .ok req =>
    match processRoutingRequest env req with
    | .error e => [.appendError req.executionID req.nodeID e, .ack msg.id]
    | .ok result => [.appendResult req.executionID req.nodeID result, .ack msg.id]

/-- Emptiness test on a rule, as validation words it: empty condition or
empty target. -/
def ruleBad (r : Rule) : Bool := r.condition == "" || r.target == ""

/-- Missing-or-incomplete test on an optional LLM spec: absent, empty
prompt template, or empty routes. -/
def llmSpecMissing : Option LLMConfig → Bool
  | none => true
  | some l => l.prompt_template == "" || l.routes.isEmpty

/-- Rejection predicate written from the claim's words: in particular it
also rejects hybrid fast rules with an empty condition or target. -/
def claimReject : Option NodeConfig → Bool
  | none => true
  | some cfg =>
    cfg.fallback == "" ||
    (cfg.mode == "deterministic" && (cfg.rules.isEmpty || cfg.rules.any ruleBad)) ||
    (cfg.mode == "llm" && llmSpecMissing cfg.llm_config) ||
    (cfg.mode == "hybrid" &&
      (cfg.fast_rules.isEmpty || llmSpecMissing cfg.llm_fallback ||
        cfg.fast_rules.any ruleBad))

/-- Rejection predicate the code actually implements: as the claim
lists, except that hybrid fast rules are never checked for empty
conditions or targets. -/
def amendedReject : Option NodeConfig → Bool
  | none => true
  | some cfg =>
    cfg.fallback == "" ||
    (cfg.mode == "deterministic" && (cfg.rules.isEmpty || cfg.rules.any ruleBad)) ||
    (cfg.mode == "llm" && llmSpecMissing cfg.llm_config) ||
    (cfg.mode == "hybrid" &&
      (cfg.fast_rules.isEmpty || llmSpecMissing cfg.llm_fallback))

theorem evalRules_eq_firstTrueRule (E : String → EvalResult) :
    ∀ (i : Nat) (rules : List Rule), evalRules E i rules = firstTrueRule E i rules
  | _, [] => rfl
  | i, rule :: rest => by
    simp only [evalRules, firstTrueRule]
    cases h : E rule.condition with
    | err e =>
      simp [EvalResult.isTrue, evalRules_eq_firstTrueRule E (i + 1) rest]
    | val v =>
      cases v with
      | vBool b =>
        cases b with
        | true => simp [EvalResult.isTrue, Value.asBool?]
        | false =>
          simp [EvalResult.isTrue, Value.asBool?,
            evalRules_eq_firstTrueRule E (i + 1) rest]
      | vNull =>
        simp [EvalResult.isTrue, Value.asBool?,
          evalRules_eq_firstTrueRule E (i + 1) rest]
      | vInt n =>
        simp [EvalResult.isTrue, Value.asBool?,
          evalRules_eq_firstTrueRule E (i + 1) rest]
      | vStr s =>
        simp [EvalResult.isTrue, Value.asBool?,
          evalRules_eq_firstTrueRule E (i + 1) rest]
      | vMap m =>
        simp [EvalResult.isTrue, Value.asBool?,
          evalRules_eq_firstTrueRule E (i + 1) rest]

theorem firstTrueRule_mem (E : String → EvalResult) :
    ∀ (i : Nat) (rules : List Rule) (j : Nat) (rule : Rule),
      firstTrueRule E i rules = some (j, rule) → rule ∈ rules
  | _, [], _, _, h => by simp [firstTrueRule] at h
  | i, r :: rest, j, rule, h => by
    simp only [firstTrueRule] at h
    split at h
    · cases h
      exact List.mem_cons_self r rest
    · exact List.mem_cons_of_mem r (firstTrueRule_mem E (i + 1) rest j rule h)

theorem checkRules_none (i : Nat) (rules : List Rule)
    (h : checkRules i rules = none) :
    ∀ r ∈ rules, r.condition ≠ "" ∧ r.target ≠ "" := by
  induction rules generalizing i with
  | nil => intro r hr; cases hr
  | cons a rest ih =>
    intro r hr
    simp only [checkRules] at h
    split at h
    · cases h
    · next hc =>
      split at h
      · cases h
      · next ht =>
        rcases List.mem_cons.mp hr with hr1 | hr1
        · subst hr1
          refine ⟨fun hc2 => ?_, fun ht2 => ?_⟩
          · exact hc (beq_iff_eq.mpr hc2)
          · exact ht (beq_iff_eq.mpr ht2)
        · exact ih (i + 1) h r hr1

theorem checkRules_isSome (i : Nat) (rules : List Rule) :
    (checkRules i rules).isSome = rules.any ruleBad := by
  induction rules generalizing i with
  | nil => rfl
  | cons a rest ih =>
    simp only [checkRules, List.any_cons, ruleBad]
    split
    · next hc => simp [hc]
    · next hc =>
      split
      · next ht => simp [ht]
      · next ht => simp [hc, ht, ih (i + 1)]

theorem validateConfig_fallback (c : NodeConfig)
    (h : validateConfig (some c) = none) : c.fallback ≠ "" := by
  intro hf
  simp [validateConfig, hf] at h

theorem validateConfig_det_rules (c : NodeConfig)
    (hm : c.mode = "deterministic") (h : validateConfig (some c) = none) :
    ∀ r ∈ c.rules, r.condition ≠ "" ∧ r.target ≠ "" := by
  simp only [validateConfig, hm] at h
  split at h
  · cases h
  · simp only [show (("deterministic" : String) == "deterministic") = true from rfl,
      if_true] at h
    split at h
    · cases h
    · exact checkRules_none 0 c.rules h

theorem matchLLMResponse_mem (resp : String) (routes : List (String × String))
    (t : String) (h : matchLLMResponse resp routes = some t) :
    ∃ k, (k, t) ∈ routes := by
  simp only [matchLLMResponse] at h
  split at h
  · next p hp =>
    cases h
    exact ⟨p.1, by simpa using List.mem_of_find?_eq_some hp⟩
  · split at h
    · next p hp =>
      cases h
      exact ⟨p.1, by simpa using List.mem_of_find?_eq_some hp⟩
    · split at h
      · next p hp =>
        cases h
        exact ⟨p.1, by simpa using List.mem_of_find?_eq_some hp⟩
      · cases h

theorem find?_pred_congr {α : Type} (p q : α → Bool) (h : ∀ x, p x = q x) :
    ∀ l : List α, l.find? p = l.find? q
  | [] => rfl
  | a :: rest => by
    simp only [List.find?]
    rw [h a]
    cases q a
    · exact find?_pred_congr p q h rest
    · rfl

theorem lookupVal_insertVal_self (m : List (String × Value)) (k : String)
    (v : Value) : lookupVal (insertVal m k v) k = some v := by
  induction m with
  | nil => simp [insertVal, lookupVal]
  | cons p rest ih =>
    simp only [insertVal]
    split
    · simp only [lookupVal]
      rw [List.find?_cons_of_pos _ (by simp)]
      rfl
    · next hne =>
      have hf : (p.1 == k) = false := by
        cases hpk : p.1 == k
        · rfl
        · exact absurd hpk hne
      simp only [lookupVal]
      rw [List.find?_cons_of_neg _ (by simp [hf])]
      exact ih

theorem lookupVal_insertVal_ne (m : List (String × Value)) (k k' : String)
    (v : Value) (h : k' ≠ k) :
    lookupVal (insertVal m k v) k' = lookupVal m k' := by
  have hkk : (k == k') = false := beq_eq_false_iff_ne.mpr (Ne.symm h)
  induction m with
  | nil =>
    simp only [insertVal, lookupVal]
    rw [List.find?_cons_of_neg _ (by simp [hkk])]
  | cons p rest ih =>
    simp only [insertVal]
    split
    · next heq =>
      have hpk : p.1 = k := beq_iff_eq.mp heq
      simp only [lookupVal]
      rw [List.find?_cons_of_neg _ (by simp [hkk]),
        List.find?_cons_of_neg _ (by simp [hpk, hkk])]
    · simp only [lookupVal]
      cases hpk : p.1 == k'
      · rw [List.find?_cons_of_neg _ (by simp [hpk]),
          List.find?_cons_of_neg _ (by simp [hpk])]
        exact ih
      · rw [List.find?_cons_of_pos _ (by simp [hpk]),
          List.find?_cons_of_pos _ (by simp [hpk])]

theorem lookupVal_foldl_not_mem (inputs : List (String × Value))
    (m : List (String × Value)) (k : String)
    (h : ∀ p ∈ inputs, p.1 ≠ k) :
    lookupVal (inputs.foldl (fun acc p => insertVal acc p.1 p.2) m) k =
      lookupVal m k := by
  induction inputs generalizing m with
  | nil => rfl
  | cons p rest ih =>
    simp only [List.foldl_cons]
    rw [ih (insertVal m p.1 p.2) (fun q hq => h q (List.mem_cons_of_mem p hq))]
    exact lookupVal_insertVal_ne m p.1 k p.2
      (fun hk => h p (List.mem_cons_self p rest) (by rw [hk]))

theorem lookupVal_foldl_mem (inputs : List (String × Value))
    (m : List (String × Value)) (k : String) (v : Value)
    (hnd : (inputs.map Prod.fst).Nodup) (hmem : (k, v) ∈ inputs) :
    lookupVal (inputs.foldl (fun acc p => insertVal acc p.1 p.2) m) k = some v := by
  induction inputs generalizing m with
  | nil => cases hmem
  | cons p rest ih =>
    simp only [List.map_cons, List.nodup_cons] at hnd
    rcases List.mem_cons.mp hmem with hm | hm
    · subst hm
      simp only [List.foldl_cons]
      rw [lookupVal_foldl_not_mem rest (insertVal m k v) k
        (fun q hq hqk => hnd.1 (by
          have hqm : q.1 ∈ List.map Prod.fst rest := List.mem_map_of_mem Prod.fst hq
          rw [hqk] at hqm
          exact hqm))]
      exact lookupVal_insertVal_self m k v
    · simp only [List.foldl_cons]
      exact ih (insertVal m p.1 p.2) hnd.2 hm

theorem lowerChar_toNat_of_upper (c : Char) (h : 65 ≤ c.toNat ∧ c.toNat ≤ 90) :
    (lowerChar c).toNat = c.toNat + 32 := by
  rw [lowerChar, if_pos h]
  have hv : (c.toNat + 32).isValidChar := Or.inl (by omega)
  rw [Char.ofNat, dif_pos hv]
  show (UInt32.ofNat' _ _).toNat = _
  have hm : (c.toNat + 32) % 4294967296 = c.toNat + 32 := Nat.mod_eq_of_lt (by omega)
  simp [UInt32.ofNat', UInt32.toNat, hm]

theorem lowerChar_fix (c : Char) (h : ¬(65 ≤ c.toNat ∧ c.toNat ≤ 90)) :
    lowerChar c = c := by
  rw [lowerChar, if_neg h]

theorem lowerChar_idem (c : Char) : lowerChar (lowerChar c) = lowerChar c := by
  by_cases h : 65 ≤ c.toNat ∧ c.toNat ≤ 90
  · have ht := lowerChar_toNat_of_upper c h
    exact lowerChar_fix _ (by omega)
  · rw [lowerChar_fix c h]
    exact lowerChar_fix c h

theorem lowerStr_chars (s : String) : ∀ c ∈ (lowerStr s).data, lowerChar c = c := by
  intro c hc
  obtain ⟨c₀, _, rfl⟩ := List.mem_map.mp hc
  exact lowerChar_idem c₀

theorem trimChars_sub (l : List Char) : ∀ c ∈ trimChars l, c ∈ l := by
  intro c hc
  unfold trimChars at hc
  rw [List.mem_reverse] at hc
  have h1 := (List.dropWhile_sublist (l := (l.dropWhile isWS).reverse) (p := isWS)).subset hc
  rw [List.mem_reverse] at h1
  exact (List.dropWhile_sublist (l := l) (p := isWS)).subset h1

theorem lowerStr_of_fix (s : String) (h : ∀ c ∈ s.data, lowerChar c = c) :
    lowerStr s = s := by
  cases s with
  | mk data =>
    simp only [lowerStr]
    congr 1
    exact (List.map_congr_left (g := id) h).trans (List.map_id data)

theorem lowerStr_trim_lowerStr (s : String) :
    lowerStr (trimStr (lowerStr s)) = trimStr (lowerStr s) := by
  apply lowerStr_of_fix
  intro c hc
  exact lowerStr_chars s c (trimChars_sub (lowerStr s).data c hc)

theorem matchSpec_eq_match (resp : String) (routes : List (String × String))
    (hnd : (routes.map (fun p => lowerStr p.1)).Nodup) :
    matchLLMResponseSpec resp routes = matchLLMResponse resp routes := by
  simp only [matchLLMResponseSpec, matchLLMResponse]
  have hfix : lowerStr (trimStr (lowerStr resp)) = trimStr (lowerStr resp) :=
    lowerStr_trim_lowerStr resp
  have hpred : ∀ p : String × String,
      (equalFold p.1 (trimStr (lowerStr resp))) =
        (lowerStr p.1 == trimStr (lowerStr resp)) := by
    intro p
    rw [equalFold, hfix]
  rw [find?_pred_congr _ _ hpred routes]
  cases hexact : routes.find? (fun p => p.1 == trimStr (lowerStr resp)) with
  | none =>
    cases hs : routes.find? (fun p => lowerStr p.1 == trimStr (lowerStr resp)) with
    | none => rfl
    | some q => rfl
  | some p =>
    have hpm := List.mem_of_find?_eq_some hexact
    have hp1 := List.find?_some hexact
    have hp1' : p.1 = trimStr (lowerStr resp) := beq_iff_eq.mp hp1
    have hspec : (lowerStr p.1 == trimStr (lowerStr resp)) = true := by
      rw [hp1', hfix]
      exact beq_self_eq_true _
    have hsome : (routes.find? (fun x => lowerStr x.1 == trimStr (lowerStr resp))).isSome := by
      rw [List.find?_isSome]
      exact ⟨p, hpm, hspec⟩
    cases hs : routes.find? (fun x => lowerStr x.1 == trimStr (lowerStr resp)) with
    | none => rw [hs] at hsome; cases hsome
    | some q =>
      have hqm := List.mem_of_find?_eq_some hs
      have hq1 := List.find?_some hs
      have hqp : q = p := by
        apply List.inj_on_of_nodup_map hnd hqm hpm
        rw [beq_iff_eq.mp hq1]
        rw [hp1', hfix]
      rw [hqp]

theorem routeDeterministic_ok_nonempty (r : Router) (st : GraphState)
    (c : NodeConfig) (res : RoutingResult) (hm : c.mode = "deterministic")
    (hok : routeDeterministic r st c = .ok res) : res.target_node ≠ "" := by
  unfold routeDeterministic at hok
  cases hval : validateConfig (some c) with
  | some e => rw [hval] at hok; cases hok
  | none =>
    rw [hval] at hok
    cases hev : evalRules (celE r st) 0 c.rules with
    | some pr =>
      obtain ⟨i, rule⟩ := pr
      rw [hev] at hok
      cases hok
      have hmem : rule ∈ c.rules := firstTrueRule_mem (celE r st) 0 c.rules i rule
        (by rw [← evalRules_eq_firstTrueRule]; exact hev)
      exact (validateConfig_det_rules c hm hval rule hmem).2
    | none =>
      rw [hev] at hok
      cases hok
      exact validateConfig_fallback c hval

theorem routeLLM_ok_nonempty (r : Router) (st : GraphState) (c : NodeConfig)
    (res : RoutingResult)
    (hroutes : ∀ lc, c.llm_config = some lc → ∀ p ∈ lc.routes, p.2 ≠ "")
    (hok : routeLLM r st c = .ok res) : res.target_node ≠ "" := by
  unfold routeLLM at hok
  split at hok
  · cases hok
  · next hval =>
    split at hok
    · cases hok
    · next client hcl =>
      split at hok
      · cases hok
      · next lc hlc =>
        split at hok
        · cases hok
        · next prompt hrp =>
          split at hok
          · cases hok
            exact validateConfig_fallback c hval
          · next response hcall =>
            split at hok
            · cases hok
              exact validateConfig_fallback c hval
            · next target hmatch =>
              cases hok
              obtain ⟨k, hk⟩ := matchLLMResponse_mem response lc.routes target hmatch
              exact hroutes lc hlc (k, target) hk

theorem routeHybrid_ok_nonempty (r : Router) (st : GraphState) (c : NodeConfig)
    (res : RoutingResult)
    (hfast : ∀ rule ∈ c.fast_rules, rule.target ≠ "")
    (hroutes : ∀ lf, c.llm_fallback = some lf → ∀ p ∈ lf.routes, p.2 ≠ "")
    (hok : routeHybrid r st c = .ok res) : res.target_node ≠ "" := by
  unfold routeHybrid at hok
  split at hok
  · cases hok
  · next hval =>
    split at hok
    · next i rule hev =>
      cases hok
      exact hfast rule (firstTrueRule_mem (celE r st) 0 c.fast_rules i rule
        (by rw [← evalRules_eq_firstTrueRule]; exact hev))
    · next hev =>
      split at hok
      · cases hok
        exact validateConfig_fallback c hval
      · next client hcl =>
        split at hok
        · cases hok
        · next lf hlf =>
          split at hok
          · cases hok
            exact validateConfig_fallback c hval
          · next prompt hrp =>
            split at hok
            · cases hok
              exact validateConfig_fallback c hval
            · next response hcall =>
              split at hok
              · cases hok
                exact validateConfig_fallback c hval
              · next target hmatch =>
                cases hok
                obtain ⟨k, hk⟩ := matchLLMResponse_mem response lf.routes target hmatch
                exact hroutes lf hlf (k, target) hk

/-- A trivial graph state used in concrete checks. -/
def stTriv : GraphState := ⟨"g", "running", [], []⟩

/-- A router whose CEL oracle distinguishes conditions by name: `broken`
errors, `notbool` yields a string, `isfalse` and `istrue` yield
booleans; the template oracle succeeds and no LLM client is set. -/
def rRules : Router :=
  ⟨fun c _ =>
    if c = "broken" then .err "eval failed"
    else if c = "notbool" then .val (.vStr "x")
    else if c = "isfalse" then .val (.vBool false)
    else if c = "istrue" then .val (.vBool true)
    else .err "unknown condition",
  fun _ _ => .ok "prompt", none⟩

/-- Deterministic config exercising skip semantics: an erroring rule, a
non-boolean rule, then two true rules. -/
def cfgC1d : NodeConfig :=
  ⟨"deterministic",
    [⟨"broken", "A"⟩, ⟨"notbool", "B"⟩, ⟨"istrue", "C"⟩, ⟨"istrue", "D"⟩],
    [], none, none, "F"⟩

/-- Hybrid config whose second fast rule is the first to evaluate true. -/
def cfgC1h : NodeConfig :=
  ⟨"hybrid", [], [⟨"broken", "X"⟩, ⟨"istrue", "Y"⟩], none,
    some ⟨"p", [("k", "t")]⟩, "F"⟩

/-- C1: for any state and any valid deterministic (resp. hybrid) config,
the decision is determined by the first rule whose condition evaluates
to boolean true — rules that error or return a non-boolean are skipped
without promoting or hiding any true rule — and otherwise falls back. -/
theorem order_first_match (r : Router) (st : GraphState)
    (cfgd cfgh : NodeConfig) (j : Nat) (ruleh : Rule)
    (hvd : validateConfig (some cfgd) = none)
    (hvh : validateConfig (some cfgh) = none)
    (hh : firstTrueRule (celE r st) 0 cfgh.fast_rules = some (j, ruleh)) :
    routeDeterministic r st cfgd =
      (match firstTrueRule (celE r st) 0 cfgd.rules with
        | some (i, rule) =>
          .ok ⟨rule.target, "matched rule " ++ toString i ++ ": " ++ rule.condition,
            "deterministic", "fast"⟩
        | none => .ok ⟨cfgd.fallback, "no rules matched", "deterministic", "fallback"⟩) ∧
    routeHybrid r st cfgh =
      .ok ⟨ruleh.target, "matched fast rule " ++ toString j ++ ": " ++ ruleh.condition,
        "hybrid", "fast"⟩ := by
  constructor
  · unfold routeDeterministic
    rw [hvd, evalRules_eq_firstTrueRule]
  · unfold routeHybrid
    rw [hvh, evalRules_eq_firstTrueRule, hh]

/-- Witness for C1 at concrete inputs: the third deterministic rule (the
first that evaluates true) wins with its declared index, and so does the
second fast rule in hybrid mode. -/
theorem order_first_match_witness :
    routeDeterministic rRules stTriv cfgC1d =
      .ok ⟨"C", "matched rule 2: istrue", "deterministic", "fast"⟩ ∧
    routeHybrid rRules stTriv cfgC1h =
      .ok ⟨"Y", "matched fast rule 1: istrue", "hybrid", "fast"⟩ := by
  have h := order_first_match rRules stTriv cfgC1d cfgC1h 1 ⟨"istrue", "Y"⟩
    rfl rfl rfl
  exact ⟨by rw [h.1]; rfl, h.2⟩

/-- C5: the consumer loop acknowledges every delivered entry exactly
once, on every terminal outcome — parse failure, processing failure and
published decision alike. -/
theorem handleMessage_one_ack (env : WorkerEnv) (msg : Msg) :
    (handleMessage env msg).countP Effect.isAck = 1 := by
  unfold handleMessage
  split
  · rfl
  · split
    · rfl
    · rfl

/-- C4 amended: every delivered entry whose payload parses as a work
item produces exactly one append, to the result stream or to the error
stream, never both; the counterexample shows that an unparsable entry
produces no append at all. -/
theorem handleMessage_one_append (env : WorkerEnv) (msg : Msg) (req : WorkRequest)
    (hp : parseWorkRequest env msg.values = .ok req) :
    (handleMessage env msg).countP Effect.isResult +
      (handleMessage env msg).countP Effect.isError = 1 := by
  unfold handleMessage
  split
  · next herr =>
    rw [hp] at herr
    cases herr
  · next req2 hok =>
    rw [hp] at hok
    cases hok
    split
    · rfl
    · rfl

/-- A worker whose request decoder accepts anything, whose state store
is empty (loads fail), over a router with no collaborators. -/
def envErr : WorkerEnv :=
  ⟨fun _ => .ok ⟨"e1", "n1", .vMap []⟩,
   fun _ => .error "key not found",
   fun _ => .error "unused",
   fun _ => .error "unused",
   ⟨fun _ _ => .err "no cel", fun _ _ => .ok "p", none⟩⟩

/-- A delivered entry carrying a string `data` field. -/
def msgData : Msg := ⟨"1-1", [("data", .vStr "payload")]⟩

/-- A delivered entry with no `data` field at all. -/
def msgNoData : Msg := ⟨"1-2", [("other", .vStr "x")]⟩

/-- Witness for the amended C4: a parsed entry whose state load fails
produces exactly one append (to the error stream). -/
theorem handleMessage_one_append_witness :
    (handleMessage envErr msgData).countP Effect.isResult +
      (handleMessage envErr msgData).countP Effect.isError = 1 :=
  handleMessage_one_append envErr msgData ⟨"e1", "n1", .vMap []⟩ rfl

/-- Counterexample to C4 as stated: an entry whose payload fails to
parse as a work item produces no append to either stream — not an
error-stream append as the claim requires. -/
theorem handleMessage_parse_failure_no_append :
    (handleMessage envErr msgNoData).countP Effect.isAppend = 0 ∧
    (handleMessage envErr msgNoData) = [.ack "1-2"] := ⟨rfl, rfl⟩

/-- A router with no LLM client whose CEL oracle always errors. -/
def rNil : Router := ⟨fun _ _ => .err "no cel", fun _ _ => .ok "p", none⟩

/-- A router whose LLM client always errors. -/
def rFail : Router :=
  ⟨fun _ _ => .err "no cel", fun _ _ => .ok "theprompt",
   some (fun _ => .error "boom")⟩

/-- A router whose template engine always fails to render. -/
def rRender : Router :=
  ⟨fun _ _ => .err "no cel", fun _ _ => .error "missing key",
   some (fun _ => .ok "resp")⟩

/-- A valid llm-mode config. -/
def cfgLLM : NodeConfig :=
  ⟨"llm", [], [], some ⟨"tpl", [("yes", "Y")]⟩, none, "fb"⟩

/-- A valid hybrid-mode config with one fast rule. -/
def cfgHyb : NodeConfig :=
  ⟨"hybrid", [], [⟨"isfalse", "T"⟩], none, some ⟨"tpl2", [("yes", "Y")]⟩, "fb2"⟩

/-- C7: when the LLM client call errors on a valid llm-mode config, the
engine returns (it does not raise) a fallback decision naming the cause
with a reasoning that starts with the llm-call-failed marker. -/
theorem llm_call_failure_contained (r : Router) (st : GraphState)
    (cfg : NodeConfig) (client : String → Except String String)
    (lc : LLMConfig) (prompt e : String)
    (hcl : r.llmClient = some client) (hlc : cfg.llm_config = some lc)
    (hv : validateConfig (some cfg) = none)
    (hrp : renderPrompt r st lc.prompt_template = .ok prompt)
    (herr : client prompt = .error e) :
    routeLLM r st cfg =
      .ok ⟨cfg.fallback, "llm call failed: llm completion failed: " ++ e,
        "llm", "fallback"⟩ := by
  simp only [routeLLM, hv, hcl, hlc, hrp, callLLM, herr]
  rfl

/-- Witness for C7 at a concrete always-erroring client. -/
theorem llm_call_failure_contained_witness :
    routeLLM rFail stTriv cfgLLM =
      .ok ⟨"fb", "llm call failed: llm completion failed: " ++ "boom",
        "llm", "fallback"⟩ :=
  llm_call_failure_contained rFail stTriv cfgLLM (fun _ => .error "boom")
    ⟨"tpl", [("yes", "Y")]⟩ "theprompt" "boom" rfl rfl rfl rfl rfl

/-- C8: a prompt-template render failure is a hard error in pure llm
mode, but in hybrid mode (after no fast rule matched) it yields a
fallback decision whose reasoning names the render error. -/
theorem render_failure_asymmetry (r : Router) (st : GraphState)
    (cfgl cfgh : NodeConfig) (client : String → Except String String)
    (lc lf : LLMConfig) (e1 e2 : String)
    (hcl : r.llmClient = some client)
    (hlc : cfgl.llm_config = some lc) (hlf : cfgh.llm_fallback = some lf)
    (hvl : validateConfig (some cfgl) = none)
    (hvh : validateConfig (some cfgh) = none)
    (hnofast : evalRules (celE r st) 0 cfgh.fast_rules = none)
    (hrl : renderPrompt r st lc.prompt_template = .error e1)
    (hrh : renderPrompt r st lf.prompt_template = .error e2) :
    routeLLM r st cfgl = .error ("failed to render prompt: " ++ e1) ∧
    routeHybrid r st cfgh =
      .ok ⟨cfgh.fallback, "failed to render prompt: " ++ e2,
        "hybrid", "fallback"⟩ := by
  constructor
  · simp only [routeLLM, hvl, hcl, hlc, hrl]
  · simp only [routeHybrid, hvh, hnofast, hcl, hlf, hrh]

/-- Witness for C8 at a concrete always-failing template engine. -/
theorem render_failure_asymmetry_witness :
    routeLLM rRender stTriv cfgLLM =
      .error ("failed to render prompt: " ++ "missing key") ∧
    routeHybrid rRender stTriv cfgHyb =
      .ok ⟨"fb2", "failed to render prompt: " ++ "missing key",
        "hybrid", "fallback"⟩ :=
  render_failure_asymmetry rRender stTriv cfgLLM cfgHyb (fun _ => .ok "resp")
    ⟨"tpl", [("yes", "Y")]⟩ ⟨"tpl2", [("yes", "Y")]⟩ "missing key" "missing key"
    rfl rfl rfl rfl rfl rfl rfl rfl

/-- C10: with no LLM client configured, a valid llm-mode config makes
Route return a hard error and no decision, while a valid hybrid-mode
config whose fast rules do not match returns a fallback decision. -/
theorem nil_client_asymmetry (r : Router) (st : GraphState)
    (cfgl cfgh : NodeConfig)
    (hcl : r.llmClient = none)
    (hml : cfgl.mode = "llm") (hmh : cfgh.mode = "hybrid")
    (hvl : validateConfig (some cfgl) = none)
    (hvh : validateConfig (some cfgh) = none)
    (hnofast : evalRules (celE r st) 0 cfgh.fast_rules = none) :
    route r st cfgl = .error "llm client not configured" ∧
    route r st cfgh =
      .ok ⟨cfgh.fallback, "fast rules did not match and llm client not configured",
        "hybrid", "fallback"⟩ := by
  have hel : ({ cfgl with mode := "llm" } : NodeConfig) = cfgl := by rw [← hml]
  have heh : ({ cfgh with mode := "hybrid" } : NodeConfig) = cfgh := by rw [← hmh]
  constructor
  · simp only [route, hml]
    simp only [show (("llm" : String) == "") = false from rfl,
      show (("llm" : String) == "deterministic") = false from rfl,
      show (("llm" : String) == "llm") = true from rfl,
      Bool.false_eq_true, if_false, if_true, hel]
    simp only [routeLLM, hvl, hcl]
  · simp only [route, hmh]
    simp only [show (("hybrid" : String) == "") = false from rfl,
      show (("hybrid" : String) == "deterministic") = false from rfl,
      show (("hybrid" : String) == "llm") = false from rfl,
      show (("hybrid" : String) == "hybrid") = true from rfl,
      Bool.false_eq_true, if_false, if_true, heh]
    simp only [routeHybrid, hvh, hnofast, hcl]

/-- Witness for C10 at concrete configs and a client-less router. -/
theorem nil_client_asymmetry_witness :
    route rNil stTriv cfgLLM = .error "llm client not configured" ∧
    route rNil stTriv cfgHyb =
      .ok ⟨"fb2", "fast rules did not match and llm client not configured",
        "hybrid", "fallback"⟩ :=
  nil_client_asymmetry rNil stTriv cfgLLM cfgHyb rfl rfl rfl rfl rfl rfl

/-- C2 amended: a decision returned on a validated config has a
non-empty target node provided every llm routes value and every hybrid
fast-rule target is itself non-empty (deterministic rule targets are
covered by validation); the counterexample shows the claim fails without
these extra provisos, which validation does not check. -/
theorem route_ok_target_nonempty (r : Router) (st : GraphState)
    (cfg : NodeConfig) (res : RoutingResult)
    (h1 : ∀ lc, cfg.llm_config = some lc → ∀ p ∈ lc.routes, p.2 ≠ "")
    (h2 : ∀ lf, cfg.llm_fallback = some lf → ∀ p ∈ lf.routes, p.2 ≠ "")
    (h3 : ∀ rule ∈ cfg.fast_rules, rule.target ≠ "")
    (hok : route r st cfg = .ok res) : res.target_node ≠ "" := by
  simp only [route] at hok
  revert hok
  generalize (if cfg.mode == "" then detectMode cfg else cfg.mode) = M
  intro hok
  split at hok
  · next hcond =>
    exact routeDeterministic_ok_nonempty r st _ res (beq_iff_eq.mp hcond) hok
  · split at hok
    · exact routeLLM_ok_nonempty r st { cfg with mode := M } res h1 hok
    · split at hok
      · exact routeHybrid_ok_nonempty r st { cfg with mode := M } res h3 h2 hok
      · cases hok

/-- Witness for the amended C2: a valid deterministic config falls back
to its non-empty fallback target. -/
theorem route_ok_target_nonempty_witness :
    route rNil stTriv
      ⟨"deterministic", [⟨"isfalse", "T"⟩], [], none, none, "fb3"⟩ =
      .ok ⟨"fb3", "no rules matched", "deterministic", "fallback"⟩ ∧
    ("fb3" : String) ≠ "" :=
  ⟨rfl, route_ok_target_nonempty rNil stTriv
    ⟨"deterministic", [⟨"isfalse", "T"⟩], [], none, none, "fb3"⟩
    ⟨"fb3", "no rules matched", "deterministic", "fallback"⟩
    (fun _ h => by cases h) (fun _ h => by cases h) (fun _ h => by cases h) rfl⟩

/-- A router whose client answers `tech`, over a successful template
engine. -/
def rTech : Router :=
  ⟨fun _ _ => .err "no cel", fun _ _ => .ok "p", some (fun _ => .ok "tech")⟩

/-- An llm config that passes validation although its only route maps to
the empty target. -/
def cfgEmptyRoute : NodeConfig :=
  ⟨"llm", [], [], some ⟨"t", [("tech", "")]⟩, none, "default"⟩

/-- Counterexample to C2 as stated: the config passes validation, yet
the engine returns a decision whose target node is the empty string —
the empty routes value flows straight into the decision. -/
theorem route_empty_target_decision :
    validateConfig (some cfgEmptyRoute) = none ∧
    route rTech stTriv cfgEmptyRoute =
      .ok ⟨"", "llm classified as: tech", "llm", "slow"⟩ := ⟨rfl, rfl⟩

/-- C3 amended: validation rejects exactly on the claim's list of
conditions minus the hybrid fast-rule emptiness checks (hybrid fast
rules are never checked for empty condition or target), and any
validation failure yields an error and no decision from every strategy;
the counterexample shows the engine accepting — and deciding on — a
hybrid config with an empty fast-rule condition and target. -/
theorem validation_rejects_exactly (c : Option NodeConfig)
    (hm : ∀ cfg, c = some cfg →
      cfg.mode = "deterministic" ∨ cfg.mode = "llm" ∨ cfg.mode = "hybrid") :
    (validateConfig c).isSome = amendedReject c ∧
    (∀ r st cfg e, c = some cfg → validateConfig c = some e →
      routeDeterministic r st cfg = .error ("invalid config: " ++ e) ∧
      routeLLM r st cfg = .error ("invalid config: " ++ e) ∧
      routeHybrid r st cfg = .error ("invalid config: " ++ e)) := by
  constructor
  · cases c with
    | none => rfl
    | some cfg =>
      rcases hm cfg rfl with h | h | h
      · cases hf : cfg.fallback == ""
        · cases he : cfg.rules.isEmpty
          · simp [validateConfig, amendedReject, h, hf, he, checkRules_isSome]
          · simp [validateConfig, amendedReject, h, hf, he]
        · simp [validateConfig, amendedReject, h, hf]
      · cases hf : cfg.fallback == ""
        · cases hlc : cfg.llm_config with
          | none => simp [validateConfig, amendedReject, h, hf, hlc, llmSpecMissing]
          | some lc =>
            cases hp : lc.prompt_template == ""
            · cases hr : lc.routes.isEmpty
              · simp [validateConfig, amendedReject, h, hf, hlc, llmSpecMissing, hp, hr]
              · simp [validateConfig, amendedReject, h, hf, hlc, llmSpecMissing, hp, hr]
            · simp [validateConfig, amendedReject, h, hf, hlc, llmSpecMissing, hp]
        · simp [validateConfig, amendedReject, h, hf]
      · cases hf : cfg.fallback == ""
        · cases hfe : cfg.fast_rules.isEmpty
          · cases hlf : cfg.llm_fallback with
            | none => simp [validateConfig, amendedReject, h, hf, hfe, hlf, llmSpecMissing]
            | some lf =>
              cases hp : lf.prompt_template == ""
              · cases hr : lf.routes.isEmpty
                · simp [validateConfig, amendedReject, h, hf, hfe, hlf, llmSpecMissing, hp, hr]
                · simp [validateConfig, amendedReject, h, hf, hfe, hlf, llmSpecMissing, hp, hr]
              · simp [validateConfig, amendedReject, h, hf, hfe, hlf, llmSpecMissing, hp]
          · simp [validateConfig, amendedReject, h, hf, hfe]
        · simp [validateConfig, amendedReject, h, hf]
  · intro r st cfg e hc hv
    cases hc
    refine ⟨?_, ?_, ?_⟩
    · unfold routeDeterministic
      rw [hv]
    · unfold routeLLM
      rw [hv]
    · unfold routeHybrid
      rw [hv]

/-- A hybrid config with an empty fast-rule condition and target, an
otherwise complete llm fallback, and a non-empty fallback. -/
def cfgBadHyb : NodeConfig :=
  ⟨"hybrid", [], [⟨"", ""⟩], none, some ⟨"p", [("k", "t")]⟩, "d"⟩

/-- Counterexample to C3 as stated: the claim's rejection predicate
flags the empty hybrid fast rule, yet validation accepts the config and
the engine produces a decision for it. -/
theorem hybrid_empty_rule_accepted :
    claimReject (some cfgBadHyb) = true ∧
    validateConfig (some cfgBadHyb) = none ∧
    routeHybrid rNil stTriv cfgBadHyb =
      .ok ⟨"d", "fast rules did not match and llm client not configured",
        "hybrid", "fallback"⟩ := ⟨rfl, rfl, rfl⟩

/-- Witness for the amended C3 at the concrete accepted hybrid config. -/
theorem validation_rejects_exactly_witness :
    (validateConfig (some cfgBadHyb)).isSome = amendedReject (some cfgBadHyb) :=
  (validation_rejects_exactly (some cfgBadHyb)
    (fun cfg hc => by cases hc; right; right; rfl)).1

/-- Routes with two keys that collide after lowercasing. -/
def routesCase : List (String × String) := [("TECH", "A"), ("tech", "B")]

/-- Counterexample to C6 as stated: step one of the code's matcher
compares the normalised response with the original keys, not with the
keys lowercased; on keys that collide after lowercasing, the claim's
procedure picks the first lowercased-key match while the code picks the
exact original-key match, yielding different targets. -/
theorem match_keys_not_lowercased :
    matchLLMResponseSpec "tech" routesCase = some "A" ∧
    matchLLMResponse "tech" routesCase = some "B" := ⟨rfl, rfl⟩

/-- Routes, router and config for the concrete llm matching check. -/
def routesC6 : List (String × String) := [("technical", "T"), ("billing", "B")]

/-- A router whose client answers a mixed-case response with
surrounding whitespace. -/
def rC6 : Router :=
  ⟨fun _ _ => .err "no cel", fun _ _ => .ok "p6",
   some (fun _ => .ok "  Technical \n")⟩

/-- An llm config over the two classification routes. -/
def cfgC6 : NodeConfig := ⟨"llm", [], [], some ⟨"t6", routesC6⟩, none, "fb6"⟩

/-- C6 amended: the code's matcher normalises (trim and lowercase), then
tries exact match against the original keys — equivalent to the claimed
lowercased-key comparison whenever no two keys collide after
lowercasing — then case-insensitive equality, then substring
containment, first key in iteration order winning; a match is decided
with path slow and a failed match falls back, as a deterministic
function of response and routes. -/
theorem llm_match_precedence (resp : String) (routes : List (String × String))
    (r : Router) (st : GraphState) (cfg : NodeConfig)
    (client : String → Except String String) (lc : LLMConfig) (prompt : String)
    (hnd : (routes.map (fun p => lowerStr p.1)).Nodup)
    (hcl : r.llmClient = some client) (hlc : cfg.llm_config = some lc)
    (hv : validateConfig (some cfg) = none)
    (hrp : renderPrompt r st lc.prompt_template = .ok prompt)
    (hresp : client prompt = .ok resp) :
    matchLLMResponseSpec resp routes = matchLLMResponse resp routes ∧
    routeLLM r st cfg =
      (match matchLLMResponse resp lc.routes with
        | some t => .ok ⟨t, "llm classified as: " ++ resp, "llm", "slow"⟩
        | none => .ok ⟨cfg.fallback,
            "llm response '" ++ resp ++ "' did not match any route",
            "llm", "fallback"⟩) := by
  refine ⟨matchSpec_eq_match resp routes hnd, ?_⟩
  simp only [routeLLM, hv, hcl, hlc, hrp, callLLM, hresp]
  cases matchLLMResponse resp lc.routes
  · rfl
  · rfl

/-- Witness for the amended C6: a whitespace-wrapped mixed-case response
matches its route exactly after normalisation. -/
theorem llm_match_precedence_witness :
    matchLLMResponseSpec "  Technical \n" routesC6 =
      matchLLMResponse "  Technical \n" routesC6 ∧
    routeLLM rC6 stTriv cfgC6 =
      (match matchLLMResponse "  Technical \n" routesC6 with
        | some t => .ok ⟨t, "llm classified as: " ++ "  Technical \n", "llm", "slow"⟩
        | none => .ok ⟨"fb6",
            "llm response '" ++ "  Technical \n" ++ "' did not match any route",
            "llm", "fallback"⟩) :=
  llm_match_precedence "  Technical \n" routesC6 rC6 stTriv cfgC6
    (fun _ => .ok "  Technical \n") ⟨"t6", routesC6⟩ "p6"
    (by decide) rfl rfl rfl rfl rfl

/-- The field list of the CEL `state` projection. -/
def celFields (st : GraphState) : List (String × Value) :=
  [("graph_id", .vStr st.graph_id), ("status", .vStr st.status),
   ("inputs", .vMap st.inputs),
   ("node_states", .vMap (convertNodeStates st.node_states))]

/-- C9 amended: the template data's top-level `state` binding equals the
CEL projection with its `node_states` entry removed (not the full
projection the claim asserts), and every input is also flattened to a
top-level field; the counterexample shows the two `state` bindings
differ on a state with node states. -/
theorem template_data_spec (st : GraphState)
    (hnd : (st.inputs.map Prod.fst).Nodup)
    (hks : ∀ p ∈ st.inputs, p.1 ≠ "state") :
    celStateVal st = .vMap (celFields st) ∧
    lookupVal (prepareStateForCEL st) "state" = some (celStateVal st) ∧
    lookupVal (templateData st) "state" =
      some (.vMap (List.eraseP (fun q => q.1 == "node_states") (celFields st))) ∧
    (∀ k v, (k, v) ∈ st.inputs → lookupVal (templateData st) k = some v) := by
  refine ⟨rfl, rfl, ?_, ?_⟩
  · unfold templateData
    rw [lookupVal_foldl_not_mem st.inputs _ "state" hks]
    rfl
  · intro k v hmem
    unfold templateData
    exact lookupVal_foldl_mem st.inputs _ k v hnd hmem

/-- A state with one completed node and no inputs. -/
def stC9 : GraphState :=
  ⟨"g", "running", [], [("n1", ⟨"completed", .vStr "out", "", .vNull, .vNull⟩)]⟩

/-- A state with one input and one completed node. -/
def stC9w : GraphState :=
  ⟨"g", "running", [("x", .vStr "1")],
   [("n1", ⟨"completed", .vStr "out", "", .vNull, .vNull⟩)]⟩

/-- Counterexample to C9 as stated: on a state with node states, the
`state` binding handed to the template engine differs from the one
handed to the expression evaluator — the template binding has no
`node_states` entry. -/
theorem template_state_lacks_node_states :
    lookupVal (templateData stC9) "state" ≠
      lookupVal (prepareStateForCEL stC9) "state" :=
  fun h =>
    absurd (congrArg List.length (Value.vMap.inj (Option.some.inj h))) (by decide)

/-- Witness for the amended C9 at a concrete state: the template
binding is the CEL projection minus `node_states`, and the input `x` is
flattened to a top-level field. -/
theorem template_data_spec_witness :
    lookupVal (templateData stC9w) "state" =
      some (.vMap (List.eraseP (fun q => q.1 == "node_states") (celFields stC9w))) ∧
    lookupVal (templateData stC9w) "x" = some (.vStr "1") := by
  have h := template_data_spec stC9w (by decide) (by decide)
  exact ⟨h.2.2.1, h.2.2.2 "x" (.vStr "1") (List.mem_singleton.mpr rfl)⟩
